import Mathlib

/-!
Shallow embedding of the annotation-overlay content script
(`src/chromeext/annotations.js`) and proofs of the specified properties.

The script runs a sequential network pipeline (auth → version gate →
annotation fetch → overlay render) and then rewrites each table row of a
rendered source file, walking the row character by character and matching
cumulative UTF-8 byte offsets against a byte-indexed annotation set.
-/

/-- An annotation record, as filtered in `getSourcegraphRefLinks`:
`{StartByte, EndByte, URL}` with the URL present. -/
structure Ann where
  startByte : Nat
  endByte : Nat
  url : String
  deriving DecidableEq, Repr

/-- Stages of the network pipeline, used to trace which requests are issued
and whether the DOM-mutating render stage runs. -/
inductive Stage where
  | authFetch
  | versionGate
  | annFetch
  | render
  deriving DecidableEq, Repr

/-- Trace of `getAnnotations(token, commitID, user, repo, branch, path)`:
it issues the annotations request and registers `getSourcegraphRefLinks`
(the DOM-mutating render) as the success handler, so `render` appears in
the trace exactly when the annotations request succeeds. -/
def getAnnotationsTrace (annOk : Bool) : List Stage :=
  Stage.annFetch :: (if annOk then [Stage.render] else [])

/-- Trace of `checkLatestCommit(token)`. The source registers the success
handler as `.done(getAnnotations(token, commitID, user, repo, branch, path))`:
JavaScript evaluates the argument eagerly, so `getAnnotations` is invoked at
registration time (its `undefined` return value becomes the no-op handler),
before and regardless of the version-gate outcome; the `.fail` handler is an
empty function. Hence the trace does not depend on `gateOk`. -/
def checkLatestCommitTrace (_gateOk annOk : Bool) : List Stage :=
  Stage.versionGate :: getAnnotationsTrace annOk

/-- Trace of `getAuthToken()`: issues the credential-fetch request with
`.done(authHandler)` and no failure handler, so `authHandler` (which calls
`checkLatestCommit(token)`) runs exactly when the request succeeds. -/
def getAuthTokenTrace (authOk gateOk annOk : Bool) : List Stage :=
  Stage.authFetch ::
    (if authOk then checkLatestCommitTrace gateOk annOk else [])

/-- Language extraction in `mainCall`: `finalPath = fileName.split(".")`,
`lang = finalPath[finalPath.length-1]`, compared lowercased. -/
def extLang (fileName : String) : String :=
  ((fileName.splitOn ".").getLastD "").toLower

/-- Trace of `mainCall()`: proceeds only when the `.file .blob-wrapper`
element exists and the lowercased last dot-separated segment of the
displayed filename is `go`; then it branches on page privacy
(`vis-private` class) into `getAuthToken` or `checkLatestCommit`. -/
def mainCallTrace (fileElem : Bool) (fileName : String)
    (visPrivate authOk gateOk annOk : Bool) : List Stage :=
  if fileElem then
    if extLang fileName = "go" then
      if visPrivate then getAuthTokenTrace authOk gateOk annOk
      else checkLatestCommitTrace gateOk annOk
    else []
  else []

/-- Output tokens of the overlay renderer: a plain character, the opening
anchor tag generated for an annotation, or the closing `</a>` tag.
The string actually built by the script is `tokStr` mapped over these. -/
inductive Tok where
  | ch (c : Char)
  | openAnchor (a : Ann)
  | closeAnchor
  deriving DecidableEq, Repr

/-- Serialization of one output token, mirroring the string fragments
concatenated by `next`. -/
def tokStr : Tok → String
  | .ch c => String.singleton c
  | .openAnchor a =>
      "<a href=\x27https://sourcegraph.com" ++ a.url ++
        "?utm_source=chromeext&utm_medium=chromeext&utm_campaign=chromeext\x27 target=\x27tab\x27 class=\x27sgdef\x27>"
  | .closeAnchor => "</a>"

/-- Serialization of a token list, i.e. the `output` string of the script. -/
def renderToks (ts : List Tok) : String :=
  String.join (ts.map tokStr)

/-- The character stream underlying a token list: anchors stripped. -/
def toksChars (ts : List Tok) : List Char :=
  ts.filterMap (fun t => match t with | .ch c => some c | _ => none)

/-- Embedding of `next(c, byteCount, annsByStartByte, annsByEndByte)` from
the source, with the module-level `annotating` flag threaded explicitly and
the returned string fragment given as tokens. Control flow as in the
source: a `byStart` match is consulted only when not annotating; a 1-byte
annotation is closed immediately; otherwise the open flag is set; when
annotating, a `byEnd` entry at `byteCount + 1` emits the character followed
by the closing tag and clears the flag; otherwise the character passes
through. -/
def next (c : Char) (byteCount : Nat) (byStart byEnd : Nat → Option Ann)
    (annotating : Bool) : List Tok × Bool :=
  match annotating, byStart byteCount with
  | false, some ann =>
      if ann.endByte - ann.startByte = 1 then
        ([.openAnchor ann, .ch c, .closeAnchor], false)
      else
        ([.openAnchor ann, .ch c], true)
  | a, _ =>
      if a = true ∧ (byEnd (byteCount + 1)).isSome then
        ([.ch c, .closeAnchor], false)
      else
        ([.ch c], a)

/-- A child node of a row's code cell, carrying exactly the two DOM
properties the script reads: the character sequence it iterates
(`nodeValue` for a text node, `outerHTML` for an element) and its
contribution to the cell's `textContent`. -/
inductive DomNode where
  | text (value : String)
  | elem (outer : String) (textContent : String)
  deriving DecidableEq, Repr

/-- Characters the traversal iterates for a child node (`split("")`). -/
def nodeChars : DomNode → List Char
  | .text v => v.data
  | .elem outer _ => outer.data

/-- Contribution of a child node to the cell's `textContent`. -/
def nodeText : DomNode → String
  | .text v => v
  | .elem _ tc => tc

/-- The row's `code.textContent`: concatenation over its child nodes. -/
def rowText (children : List DomNode) : String :=
  String.join (children.map nodeText)

/-- Byte length of the UTF-8 encoding of a string
(`utf8.encode(s).length` in the source). -/
def utf8Len (s : String) : Nat :=
  s.utf8ByteSize

/-- The global counter update for one row (`traverseDOM`, the lines
`count += utf8.encode(code.textContent).length` and the conditional
`count++` for the trailing newline). -/
def rowCount (count : Nat) (children : List DomNode) : Nat :=
  let c := count + utf8Len (rowText children)
  if rowText children = "\n" then c else c + 1

/-- Traversal state inside `traverseDOM`: accumulated output, the per-row
`startByte` counter, and the module-level `consumingSpan` / `annotating`
flags. -/
structure TravState where
  out : List Tok
  startByte : Nat
  consumingSpan : Bool
  annotating : Bool
  deriving DecidableEq, Repr

/-- Flag-raising check at the top of the character loop: `consumingSpan`
becomes true when the character is `<` and the lookahead
(`childNodeChars[k+1]`, absent at the end of the node) is not a space;
otherwise it keeps its previous value. -/
def raiseFlag (c : Char) (lookahead : Option Char) (prev : Bool) : Bool :=
  if c = '<' ∧ lookahead ≠ some ' ' then true else prev

/-- One iteration of the inner character loop of `traverseDOM`:
raise `consumingSpan` on `<` not followed by a space (also at the end of
the node, where the lookahead is absent); outside consumption emit via
`next` and advance `startByte` by the character's UTF-8 byte length;
inside consumption copy the character through; clear `consumingSpan`
after a `>`. -/
def stepChar (byStart byEnd : Nat → Option Ann) (s : TravState) (c : Char)
    (lookahead : Option Char) : TravState :=
  let cs := raiseFlag c lookahead s.consumingSpan
  let s1 :=
    if cs = false then
      let r := next c s.startByte byStart byEnd s.annotating
      { s with out := s.out ++ r.1,
               startByte := s.startByte + c.utf8Size,
               annotating := r.2,
               consumingSpan := cs }
    else
      { s with out := s.out ++ [.ch c], consumingSpan := cs }
  if c = '>' then { s1 with consumingSpan := false } else s1

/-- The inner character loop over one child node's characters. -/
def processChars (byStart byEnd : Nat → Option Ann) :
    List Char → TravState → TravState
  | [], s => s
  | c :: rest, s =>
      processChars byStart byEnd rest (stepChar byStart byEnd s c rest.head?)

/-- Processing of one child node: the source resets `consumingSpan` and
`annotating` to `false` at the start of every child node, then runs the
character loop. -/
def processNode (byStart byEnd : Nat → Option Ann) (s : TravState)
    (n : DomNode) : TravState :=
  processChars byStart byEnd (nodeChars n)
    { s with consumingSpan := false, annotating := false }

/-- Processing of one row's children, starting the per-row `startByte` at
the incoming global `count` and threading the module-level flags. Returns
the row's output tokens and the final flags. -/
def processRow (byStart byEnd : Nat → Option Ann) (cs ann : Bool)
    (count : Nat) (children : List DomNode) : List Tok × Bool × Bool :=
  let s := children.foldl (processNode byStart byEnd)
    { out := [], startByte := count, consumingSpan := cs, annotating := ann }
  (s.out, s.consumingSpan, s.annotating)

/-- The row loop of `traverseDOM`: for each row, `startByte` starts at the
current `count`, the count advances by the row's text-content byte length
plus the conditional newline, and the children are traversed; outputs are
collected per row. -/
def traverseRows (byStart byEnd : Nat → Option Ann) :
    List (List DomNode) → Nat → Bool → Bool → List (List Tok)
  | [], _, _, _ => []
  | r :: rs, count, cs, ann =>
      let count2 := rowCount count r
      let p := processRow byStart byEnd cs ann count r
      p.1 :: traverseRows byStart byEnd rs count2 p.2.1 p.2.2

/-- Entry point of `traverseDOM`: all rows, counter starting at 0. -/
def traverseDOM (byStart byEnd : Nat → Option Ann)
    (rows : List (List DomNode)) : List (List Tok) :=
  traverseRows byStart byEnd rows 0 false false

/-! ### Helper lemmas -/

lemma toksChars_append (a b : List Tok) :
    toksChars (a ++ b) = toksChars a ++ toksChars b := by
  simp [toksChars, List.filterMap_append]

lemma toksChars_next (c : Char) (k : Nat) (byStart byEnd : Nat → Option Ann)
    (a : Bool) : toksChars (next c k byStart byEnd a).1 = [c] := by
  unfold next
  cases a <;> cases h : byStart k <;> simp [h, toksChars] <;> split <;>
    simp [toksChars]

lemma toksChars_single (c : Char) : toksChars [Tok.ch c] = [c] := rfl

lemma stepChar_out (byStart byEnd : Nat → Option Ann) (s : TravState)
    (c : Char) (la : Option Char) :
    toksChars (stepChar byStart byEnd s c la).out = toksChars s.out ++ [c] := by
  unfold stepChar
  cases hc : raiseFlag c la s.consumingSpan <;>
    by_cases h2 : c = '>' <;>
    simp [hc, h2, toksChars_append, toksChars_next, toksChars_single]

lemma processChars_out (byStart byEnd : Nat → Option Ann) :
    ∀ (l : List Char) (s : TravState),
      toksChars (processChars byStart byEnd l s).out = toksChars s.out ++ l
  | [], _ => by simp [processChars]
  | c :: rest, s => by
      rw [processChars, processChars_out byStart byEnd rest, stepChar_out]
      simp

lemma processNode_out (byStart byEnd : Nat → Option Ann) (s : TravState)
    (n : DomNode) :
    toksChars (processNode byStart byEnd s n).out =
      toksChars s.out ++ nodeChars n := by
  unfold processNode
  rw [processChars_out]

lemma foldl_processNode_out (byStart byEnd : Nat → Option Ann) :
    ∀ (children : List DomNode) (s : TravState),
      toksChars ((children.foldl (processNode byStart byEnd) s).out) =
        toksChars s.out ++ (children.map nodeChars).flatten
  | [], _ => by simp
  | n :: rest, s => by
      rw [List.foldl_cons, foldl_processNode_out byStart byEnd rest,
        processNode_out]
      simp

lemma utf8ByteSize_go_eq : ∀ l : List Char,
    String.utf8ByteSize.go l = (l.map Char.utf8Size).sum
  | [] => rfl
  | c :: cs => by
      rw [List.map_cons, List.sum_cons,
        show String.utf8ByteSize.go (c :: cs) =
          String.utf8ByteSize.go cs + c.utf8Size from rfl,
        utf8ByteSize_go_eq cs]
      omega

lemma utf8Len_eq (s : String) :
    utf8Len s = (s.data.map Char.utf8Size).sum := by
  cases s with
  | mk l => exact utf8ByteSize_go_eq l

lemma next_annotating_true (c : Char) (k : Nat)
    (byStart byEnd : Nat → Option Ann) (h : (byEnd (k + 1)).isSome = false) :
    (next c k byStart byEnd true).2 = true := by
  unfold next
  cases hbs : byStart k <;> simp [hbs, h]

lemma stepChar_annotating_consuming (byStart byEnd : Nat → Option Ann)
    (t : TravState) (c : Char) (la : Option Char)
    (hcs : raiseFlag c la t.consumingSpan = true) :
    (stepChar byStart byEnd t c la).annotating = t.annotating := by
  unfold stepChar
  by_cases h2 : c = '>'
  · subst h2; simp [hcs]
  · simp [hcs, h2]

lemma stepChar_annotating_nonconsuming (byStart byEnd : Nat → Option Ann)
    (t : TravState) (c : Char) (la : Option Char)
    (hcs : raiseFlag c la t.consumingSpan = false) :
    (stepChar byStart byEnd t c la).annotating =
      (next c t.startByte byStart byEnd t.annotating).2 := by
  unfold stepChar
  by_cases h2 : c = '>'
  · subst h2; simp [hcs]
  · simp [hcs, h2]

lemma stepChar_startByte_nonconsuming (byStart byEnd : Nat → Option Ann)
    (t : TravState) (c : Char) (la : Option Char)
    (hcs : raiseFlag c la t.consumingSpan = false) :
    (stepChar byStart byEnd t c la).startByte = t.startByte + c.utf8Size := by
  unfold stepChar
  by_cases h2 : c = '>'
  · subst h2; simp [hcs]
  · simp [hcs, h2]

/-! ### Claim theorems -/

/-- Claim C1: the specification states that when the version-gate request
fails, the pipeline terminates there — the annotation fetch is never
invoked and no DOM mutation occurs. The code violates this: because
`.done(getAnnotations(token, ...))` applies `getAnnotations` eagerly while
registering the handler, a failed gate (`gateOk = false`) still issues the
annotation fetch, and the render stage still runs when that fetch
succeeds. This theorem evaluates the embedded pipeline at the failing
input. -/
theorem c1_gate_failure_still_fetches :
    checkLatestCommitTrace false true =
      [Stage.versionGate, Stage.annFetch, Stage.render] ∧
    Stage.annFetch ∈ checkLatestCommitTrace false false := by
  decide

/-- Claim C2, counterexample: the claim says the open-annotation flag
persists across child-node boundaries so that an annotation opened in one
child node can be closed in a later child node of the same row. With the
annotation [0, 4) over the two text nodes `"ab"` and `"cd"`, the opening
anchor is emitted in the first child and `annotating` is still raised at
the end of that child, yet the rendered row contains no closing anchor at
all: the flag was reset at the start of the second child, so the
end-boundary match at offset 3 + 1 = 4 never fires. -/
theorem c2_counterexample :
    Tok.openAnchor ⟨0, 4, "/u"⟩ ∈
      (processRow (fun n => if n = 0 then some (⟨0, 4, "/u"⟩ : Ann) else none)
        (fun n => if n = 4 then some (⟨0, 4, "/u"⟩ : Ann) else none)
        false false 0 [DomNode.text "ab", DomNode.text "cd"]).1 ∧
    Tok.closeAnchor ∉
      (processRow (fun n => if n = 0 then some (⟨0, 4, "/u"⟩ : Ann) else none)
        (fun n => if n = 4 then some (⟨0, 4, "/u"⟩ : Ann) else none)
        false false 0 [DomNode.text "ab", DomNode.text "cd"]).1 ∧
    (processChars (fun n => if n = 0 then some (⟨0, 4, "/u"⟩ : Ann) else none)
        (fun n => if n = 4 then some (⟨0, 4, "/u"⟩ : Ann) else none)
        "ab".data
        { out := [], startByte := 0, consumingSpan := false,
          annotating := false }).annotating = true := by
  decide

/-- Claim C2 (amended): during one render pass, BOTH the markup-consumption
flag and the open-annotation flag are reset to false at the start of every
child node (`processNode` ignores the incoming flags), and within a child
node a raised open-annotation flag becomes false only when the
end-boundary match (`byEnd` entry keyed at current offset + 1) fires in a
non-consuming position; consequently an annotation opened in one child
node is never closed in a later child node. -/
theorem c2_flags_reset_per_child (byStart byEnd : Nat → Option Ann)
    (s : TravState) (n : DomNode) (t : TravState) (c : Char) (la : Option Char)
    (ht : t.annotating = true)
    (hcl : (stepChar byStart byEnd t c la).annotating = false) :
    processNode byStart byEnd s n =
      processNode byStart byEnd
        { s with consumingSpan := false, annotating := false } n ∧
    (raiseFlag c la t.consumingSpan = false ∧
      (byEnd (t.startByte + 1)).isSome = true) := by
  refine ⟨rfl, ?_⟩
  cases hcs : raiseFlag c la t.consumingSpan with
  | true =>
      rw [stepChar_annotating_consuming byStart byEnd t c la hcs, ht] at hcl
      exact absurd hcl (by simp)
  | false =>
      refine ⟨rfl, ?_⟩
      cases he : (byEnd (t.startByte + 1)).isSome with
      | true => rfl
      | false =>
          rw [stepChar_annotating_nonconsuming byStart byEnd t c la hcs, ht,
            next_annotating_true c t.startByte byStart byEnd he] at hcl
          exact absurd hcl (by simp)

/-- Witness for the amended claim C2 at a concrete input: a step on the
character `x` at offset 0 with the flag open and an end boundary keyed at
offset 1 clears the flag, and the child-node entry point ignores the
incoming flag values. -/
theorem c2_flags_reset_per_child_witness :
    processNode (fun _ => none)
        (fun n => if n = 1 then some (⟨0, 1, "/w"⟩ : Ann) else none)
        { out := [], startByte := 0, consumingSpan := true, annotating := true }
        (DomNode.text "a") =
      processNode (fun _ => none)
        (fun n => if n = 1 then some (⟨0, 1, "/w"⟩ : Ann) else none)
        { out := [], startByte := 0, consumingSpan := false,
          annotating := false }
        (DomNode.text "a") ∧
    (raiseFlag 'x' none false = false ∧
      ((fun n => if n = 1 then some (⟨0, 1, "/w"⟩ : Ann) else none)
          ((0 : Nat) + 1)).isSome = true) :=
  c2_flags_reset_per_child (fun _ => none)
    (fun n => if n = 1 then some (⟨0, 1, "/w"⟩ : Ann) else none)
    { out := [], startByte := 0, consumingSpan := true, annotating := true }
    (DomNode.text "a")
    { out := [], startByte := 0, consumingSpan := false, annotating := true }
    'x' none rfl (by decide)

/-- Claim C3: for every row and every annotation index, stripping all
anchor tokens inserted by the overlay renderer from the row's rendered
output yields exactly the row's original character stream (the serialized
child nodes, which determine the row's text content): the renderer only
wraps existing characters in anchors and never adds, drops, or reorders
the underlying characters. -/
theorem c3_round_trip (byStart byEnd : Nat → Option Ann) (cs ann : Bool)
    (count : Nat) (children : List DomNode) :
    toksChars (processRow byStart byEnd cs ann count children).1 =
      (children.map nodeChars).flatten := by
  unfold processRow
  rw [foldl_processNode_out]
  rfl

/-- Claim C4: for every row, the row's contribution to the global
cumulative byte counter in the row loop equals the sum of the UTF-8 byte
lengths of all of the row's text-content characters, plus one extra byte
for the trailing newline, except that no extra byte is added when the
row's entire content is exactly a lone newline character. -/
theorem c4_row_counter (byStart byEnd : Nat → Option Ann)
    (r : List DomNode) (rs : List (List DomNode)) (count : Nat)
    (cs ann : Bool) :
    traverseRows byStart byEnd (r :: rs) count cs ann =
      (processRow byStart byEnd cs ann count r).1 ::
        traverseRows byStart byEnd rs
          (count + ((rowText r).data.map Char.utf8Size).sum +
            (if rowText r = "\n" then 0 else 1))
          (processRow byStart byEnd cs ann count r).2.1
          (processRow byStart byEnd cs ann count r).2.2 := by
  have h : rowCount count r =
      count + ((rowText r).data.map Char.utf8Size).sum +
        (if rowText r = "\n" then 0 else 1) := by
    unfold rowCount
    by_cases hn : rowText r = "\n"
    · simp [hn, ← utf8Len_eq]
      decide
    · simp [hn, ← utf8Len_eq]
  rw [traverseRows, h]

/-- Claim C5: for an annotation [N, M) with M - N > 1 held in the index,
the renderer emits the opening anchor immediately before the character
whose cumulative offset equals N (when no annotation is open, marking an
annotation open), and emits the closing anchor immediately after the
character whose offset + 1 equals M (the `byEnd` lookup at current
offset + 1, while an annotation is open), clearing the open flag. -/
theorem c5_multibyte_open_close (byStart byEnd : Nat → Option Ann)
    (ann : Ann) (N M K : Nat) (c c2 : Char)
    (hs : byStart N = some ann) (h1 : ann.startByte = N) (h2 : ann.endByte = M)
    (hlen : 1 < M - N) (hK : K + 1 = M) (he : (byEnd M).isSome = true) :
    next c N byStart byEnd false = ([.openAnchor ann, .ch c], true) ∧
    next c2 K byStart byEnd true = ([.ch c2, .closeAnchor], false) := by
  constructor
  · unfold next
    rw [hs]
    have : ¬(ann.endByte - ann.startByte = 1) := by
      rw [h1, h2]; omega
    simp [this]
  · unfold next
    cases hbs : byStart K <;> simp [hbs, hK, he]

/-- Witness for claim C5 at the concrete annotation [0, 2): the opening
anchor is emitted before the character at offset 0 and the closing anchor
after the character at offset 1. -/
theorem c5_multibyte_open_close_witness :
    next 'a' 0 (fun n => if n = 0 then some (⟨0, 2, "/m"⟩ : Ann) else none)
        (fun n => if n = 2 then some (⟨0, 2, "/m"⟩ : Ann) else none) false =
      ([.openAnchor ⟨0, 2, "/m"⟩, .ch 'a'], true) ∧
    next 'b' 1 (fun n => if n = 0 then some (⟨0, 2, "/m"⟩ : Ann) else none)
        (fun n => if n = 2 then some (⟨0, 2, "/m"⟩ : Ann) else none) true =
      ([.ch 'b', .closeAnchor], false) :=
  c5_multibyte_open_close
    (fun n => if n = 0 then some (⟨0, 2, "/m"⟩ : Ann) else none)
    (fun n => if n = 2 then some (⟨0, 2, "/m"⟩ : Ann) else none)
    ⟨0, 2, "/m"⟩ 0 2 1 'a' 'b' (by decide) rfl rfl (by decide) rfl (by decide)

/-- Claim C6: for an annotation whose end byte minus start byte equals
exactly 1, when its start offset is reached with no annotation open, the
renderer emits a complete anchor (open tag, the single character, close
tag) immediately and returns with the open-annotation flag still false, so
no other character is wrapped by that annotation. -/
theorem c6_one_byte (byStart byEnd : Nat → Option Ann) (ann : Ann)
    (N : Nat) (c : Char)
    (hs : byStart N = some ann)
    (hlen : ann.endByte - ann.startByte = 1) :
    next c N byStart byEnd false =
      ([.openAnchor ann, .ch c, .closeAnchor], false) := by
  unfold next
  rw [hs]
  simp [hlen]

/-- Witness for claim C6 at the concrete one-byte annotation [5, 6). -/
theorem c6_one_byte_witness :
    next 'q' 5 (fun n => if n = 5 then some (⟨5, 6, "/o"⟩ : Ann) else none)
        (fun _ => none) false =
      ([.openAnchor ⟨5, 6, "/o"⟩, .ch 'q', .closeAnchor], false) :=
  c6_one_byte (fun n => if n = 5 then some (⟨5, 6, "/o"⟩ : Ann) else none)
    (fun _ => none) ⟨5, 6, "/o"⟩ 5 'q' (by decide) rfl

/-- Claim C7: when the markup-consumption flag is raised at a character
(either raised now by a `<` whose lookahead is not a space, or carried
over and not yet cleared), the character is copied through unchanged, the
cumulative byte counter does not advance, the open-annotation flag is
untouched (the character neither starts nor ends an annotation), and the
flag is cleared exactly when the character is `>`. -/
theorem c7_markup_consumption (byStart byEnd : Nat → Option Ann)
    (s : TravState) (c : Char) (la : Option Char)
    (hraised : raiseFlag c la s.consumingSpan = true) :
    (stepChar byStart byEnd s c la).out = s.out ++ [Tok.ch c] ∧
    (stepChar byStart byEnd s c la).startByte = s.startByte ∧
    (stepChar byStart byEnd s c la).annotating = s.annotating ∧
    (stepChar byStart byEnd s c la).consumingSpan =
      (if c = '>' then false else true) := by
  unfold stepChar
  by_cases h2 : c = '>'
  · subst h2; simp [hraised]
  · simp [hraised, h2]

/-- Witness for claim C7 at the concrete character `<` followed by `p`:
the flag is raised, the character passes through uncounted. -/
theorem c7_markup_consumption_witness :
    (stepChar (fun _ => none) (fun _ => none)
        { out := [], startByte := 3, consumingSpan := false,
          annotating := false } '<' (some 'p')).out = [] ++ [Tok.ch '<'] ∧
    (stepChar (fun _ => none) (fun _ => none)
        { out := [], startByte := 3, consumingSpan := false,
          annotating := false } '<' (some 'p')).startByte = 3 ∧
    (stepChar (fun _ => none) (fun _ => none)
        { out := [], startByte := 3, consumingSpan := false,
          annotating := false } '<' (some 'p')).annotating = false ∧
    (stepChar (fun _ => none) (fun _ => none)
        { out := [], startByte := 3, consumingSpan := false,
          annotating := false } '<' (some 'p')).consumingSpan =
      (if '<' = '>' then false else true) :=
  c7_markup_consumption (fun _ => none) (fun _ => none)
    { out := [], startByte := 3, consumingSpan := false, annotating := false }
    '<' (some 'p') (by decide)

/-- Claim C8: for every character processed outside a markup-consumption
span, the cumulative byte counter advances by the UTF-8 byte length of
that character, which lies between 1 and 4, and the character itself
appears verbatim in the emitted output. -/
theorem c8_utf8_advance (byStart byEnd : Nat → Option Ann)
    (s : TravState) (c : Char) (la : Option Char)
    (houtside : raiseFlag c la s.consumingSpan = false) :
    (stepChar byStart byEnd s c la).startByte = s.startByte + c.utf8Size ∧
    1 ≤ c.utf8Size ∧ c.utf8Size ≤ 4 ∧
    toksChars (stepChar byStart byEnd s c la).out = toksChars s.out ++ [c] :=
  ⟨stepChar_startByte_nonconsuming byStart byEnd s c la houtside,
    Char.utf8Size_pos c, Char.utf8Size_le_four c,
    stepChar_out byStart byEnd s c la⟩

/-- Witness for claim C8 at a concrete 3-byte character processed while an
annotation is open: the counter advances by its UTF-8 length and the
character appears verbatim in the output. -/
theorem c8_utf8_advance_witness :
    (stepChar (fun _ => none) (fun _ => none)
        { out := [], startByte := 0, consumingSpan := false,
          annotating := true } '世' none).startByte = 0 + '世'.utf8Size ∧
    1 ≤ '世'.utf8Size ∧ '世'.utf8Size ≤ 4 ∧
    toksChars (stepChar (fun _ => none) (fun _ => none)
        { out := [], startByte := 0, consumingSpan := false,
          annotating := true } '世' none).out = toksChars [] ++ ['世'] :=
  c8_utf8_advance (fun _ => none) (fun _ => none)
    { out := [], startByte := 0, consumingSpan := false, annotating := true }
    '世' none (by decide)

/-- Claim C9, counterexample: the claim says that when the credential-fetch
request fails, the pipeline still proceeds to the version-gate stage
without a token. In the code `getAuthToken` registers `authHandler` only
as a success handler and installs no failure handler, so on a failed
credential request the trace contains only the credential fetch and no
version-gate request. -/
theorem c9_counterexample :
    getAuthTokenTrace false true true = [Stage.authFetch] ∧
    Stage.versionGate ∉ getAuthTokenTrace false true true := by
  decide

/-- Claim C9 (amended): the version-gate request after an authenticated
page's credential fetch is issued exactly when the credential-fetch
request succeeds; on any failure of that request the pipeline stops at
the auth stage and no further request is made. -/
theorem c9_amended_gate_iff_auth (authOk gateOk annOk : Bool) :
    Stage.versionGate ∈ getAuthTokenTrace authOk gateOk annOk ↔
      authOk = true := by
  cases authOk <;> cases gateOk <;> cases annOk <;> decide

/-- Claim C10: the pipeline starts (some request is issued) precisely when
the file element is present and the lowercased last dot-separated segment
of the displayed filename equals `go`; for any other extension the trace
is empty — no network request is issued and no render occurs. -/
theorem c10_go_extension_gate (fileElem : Bool) (fileName : String)
    (visPrivate authOk gateOk annOk : Bool) :
    mainCallTrace fileElem fileName visPrivate authOk gateOk annOk ≠ [] ↔
      (fileElem = true ∧ extLang fileName = "go") := by
  unfold mainCallTrace
  cases fileElem <;> by_cases hl : extLang fileName = "go" <;>
    cases visPrivate <;>
      simp [hl, getAuthTokenTrace, checkLatestCommitTrace, getAnnotationsTrace]
